import Mathlib

/-!
Shallow embedding of the webhook service in `src/main.py`: Python string
helpers, token validation (`token_ok`), payload normalization (`pick_email`,
`normalize_event`), event classification, the webhook handler
(`kiwify_webhook`) and the status query, over an explicit database state.
-/

namespace LazyBackend

/-- JSON values. Numbers are restricted to integers; Python dicts become
association lists (keys distinct in any real payload). A missing key and an
explicit JSON null are both modelled as `Json.null`, matching how
`dict.get` folds them together in the source. -/
inductive Json where
  | null
  | bool (b : Bool)
  | num (n : Int)
  | str (s : String)
  | arr (elems : List Json)
  | obj (fields : List (String × Json))

/-- Whitespace test of Python `str.strip()` (ASCII whitespace). -/
def pyIsSpace (c : Char) : Bool :=
  c == ' ' || c == '\t' || c == '\n' || c == '\r' || c == '\x0b' || c == '\x0c'

/-- Model of Python `str.strip()`: drop whitespace from both ends. -/
def pyStrip (s : String) : String :=
  ⟨((s.data.dropWhile pyIsSpace).reverse.dropWhile pyIsSpace).reverse⟩

/-- Model of Python `str.lower()` (ASCII case folding). -/
def pyLower (s : String) : String :=
  ⟨s.data.map Char.toLower⟩

/-- Model of Python `c in s` for a single-character pattern. -/
def pyContainsChar (s : String) (c : Char) : Bool :=
  s.data.contains c

/-- Model of Python `s.replace(" ", "_")` (single-character pattern, so it
is a character-wise map). -/
def pyReplaceSpaceUnderscore (s : String) : String :=
  ⟨s.data.map (fun c => if c == ' ' then '_' else c)⟩

/-- Model of Python `s.startswith(pre)`. -/
def pyStartsWith (s pre : String) : Bool :=
  pre.data.isPrefixOf s.data

/-- Everything after the first space of a character list: Python
`s.split(" ", 1)[1]`, defined when a space exists (the only way the source
reaches it, guarded by `startswith("bearer ")`). -/
def afterFirstSpace : List Char → List Char
  | [] => []
  | c :: rest => if c == ' ' then rest else afterFirstSpace rest

/-- Python truthiness of a JSON-shaped value. -/
def pytruthy : Json → Bool
  | .null => false
  | .bool b => b
  | .num n => n != 0
  | .str s => s != ""
  | .arr elems => !elems.isEmpty
  | .obj fields => !fields.isEmpty

mutual

/-- Model of Python `repr()` on JSON-shaped values (quote escaping inside
nested strings is not modelled; no claim depends on it). -/
def pyrepr : Json → String
  | .null => "None"
  | .bool b => if b then "True" else "False"
  | .num n => toString n
  | .str s => "'" ++ s ++ "'"
  | .arr elems => "[" ++ pyreprItems elems ++ "]"
  | .obj fields => "\x7b" ++ pyreprFields fields ++ "\x7d"

/-- Comma-separated `repr` of list items. -/
def pyreprItems : List Json → String
  | [] => ""
  | [v] => pyrepr v
  | v :: rest => pyrepr v ++ ", " ++ pyreprItems rest

/-- Comma-separated `repr` of dict fields. -/
def pyreprFields : List (String × Json) → String
  | [] => ""
  | [(k, v)] => "'" ++ k ++ "': " ++ pyrepr v
  | (k, v) :: rest => "'" ++ k ++ "': " ++ pyrepr v ++ ", " ++ pyreprFields rest

end

/-- Model of Python `str()`. -/
def pystr : Json → String
  | .str s => s
  | v => pyrepr v

/-- Python `dict.get(key)`: the stored value, or None (`Json.null`) when the
key is absent. -/
def dictGet (fields : List (String × Json)) (key : String) : Json :=
  match fields.lookup key with
  | some v => v
  | none => .null

/-- Python `a or b`: `a` when truthy, else `b`. -/
def pyor (a b : Json) : Json :=
  if pytruthy a then a else b

/-- The request data `token_ok` inspects: the repeatable `signature` query
parameter (`query_params.getlist`), and the two headers, `none` when absent
(`headers.get(..., "")` then yields `""`). -/
structure HRequest where
  signatureParams : List String
  xWebhookToken : Option String
  authorization : Option String

/-- `token_ok` from `src/main.py` (lines 97-121). `webhookToken` is the
module-level `WEBHOOK_TOKEN`, already stripped at configuration time. -/
def token_ok (webhookToken : String) (req : HRequest) : Bool :=
  if webhookToken == "" then
    true
  else
    let qs_sigs := (req.signatureParams.filter (fun s => s != "")).map pyStrip
    if !qs_sigs.isEmpty && qs_sigs.contains webhookToken then
      true
    else
      let hdr_sig := pyStrip (req.xWebhookToken.getD "")
      if hdr_sig == webhookToken then
        true
      else
        let hdr_auth := pyStrip (req.authorization.getD "")
        if pyStartsWith (pyLower hdr_auth) "bearer " then
          let bearer := pyStrip ⟨afterFirstSpace hdr_auth.data⟩
          bearer == webhookToken
        else
          false

/-- The fixed ordered list of probe paths of `pick_email` (lines 131-142). -/
def email_paths : List (List String) :=
  [["customer", "email"],
   ["Customer", "email"],
   ["buyer", "email"],
   ["order", "customer", "email"],
   ["order", "customer_email"],
   ["customer_email"],
   ["customerEmail"],
   ["email"],
   ["data", "customer", "email"],
   ["data", "Customer", "email"]]

/-- One step of the inner loop of `pick_email`: `ref.get(key)` when `ref`
is a dict, else None. -/
def resolveStep (ref : Json) (key : String) : Json :=
  match ref with
  | .obj fields => dictGet fields key
  | _ => .null

/-- The inner loop of `pick_email`: follow the key path from `data`. -/
def resolvePath (data : Json) (path : List String) : Json :=
  path.foldl resolveStep data

/-- The path loop of `pick_email`: first path resolving to a string that
contains `@` wins; its value is stripped and lower-cased. -/
def pick_email_go (data : Json) : List (List String) → String
  | [] => ""
  | path :: rest =>
    match resolvePath data path with
    | .str s => if pyContainsChar s '@' then pyLower (pyStrip s) else pick_email_go data rest
    | _ => pick_email_go data rest

/-- `pick_email` from `src/main.py` (lines 127-154). -/
def pick_email (data : Json) : String :=
  pick_email_go data email_paths

/-- The final normalization applied to the chosen event value:
`str(ev).strip().lower().replace(" ", "_")`. -/
def eventProc (s : String) : String :=
  pyReplaceSpaceUnderscore (pyLower (pyStrip s))

/-- `normalize_event` from `src/main.py` (lines 157-171): an `or`-chain over
the candidate fields, falling back to `""`. -/
def normalize_event (data : List (String × Json)) : String :=
  let ev :=
    pyor (dictGet data "event")
      (pyor (dictGet data "type")
        (pyor (dictGet data "evento")
          (pyor (dictGet data "Event")
            (pyor (dictGet data "name")
              (pyor (dictGet data "webhook_event_type")
                (pyor (dictGet data "order_status") (.str "")))))))
  eventProc (pystr ev)

/-- The `active_events` set of the handler (lines 213-221). -/
def active_events : List String :=
  ["compra_aprovada", "purchase_approved", "approved", "subscription_renewed",
   "assinatura_renovada", "order_approved", "paid"]

/-- The `inactive_events` set of the handler (lines 223-232). -/
def inactive_events : List String :=
  ["subscription_canceled", "assinatura_cancelada", "subscription_late",
   "chargeback", "refund", "reembolso", "canceled", "refunded"]

/-- Outcome of the `new_active` dispatch in the handler (lines 234-241). -/
inductive Classification where
  | Activate
  | Deactivate
  | Ignore
deriving DecidableEq

/-- The classification of a normalized event name, as the handler computes
`new_active` (lines 234-241). -/
def classify (event : String) : Classification :=
  if active_events.contains event then .Activate
  else if inactive_events.contains event then .Deactivate
  else .Ignore

/-- A row of the `subscriptions` table (email is the primary key). -/
structure SubscriptionRow where
  email : String
  active : Bool
  updated_at : Nat
deriving DecidableEq

/-- A row of the `webhook_events` audit table (the serial id and
`received_at` default are kept implicit by list position). -/
structure WebhookEventRow where
  event : Option String
  email : Option String
  raw : Json

/-- The database state: the two tables. -/
structure DBState where
  subscriptions : List SubscriptionRow
  webhook_events : List WebhookEventRow

/-- The `INSERT ... ON CONFLICT (email) DO UPDATE` of the handler
(lines 247-252): update in place when a row with that email exists,
otherwise append. -/
def upsertSubscription (subs : List SubscriptionRow) (email : String)
    (active : Bool) (now : Nat) : List SubscriptionRow :=
  if subs.any (fun r => r.email == email) then
    subs.map (fun r => if r.email == email then ⟨email, active, now⟩ else r)
  else
    subs ++ [⟨email, active, now⟩]

/-- Python `x or None` on a string, as used in the audit insert
(line 201). -/
def strOrNone (s : String) : Option String :=
  if s == "" then none else some s

/-- The handler's possible HTTP responses. `serverError` models an
unhandled exception escaping the handler (HTTP 500). -/
inductive WResponse where
  | unauthorized
  | badRequest
  | serverError
  | noEmail (event : String)
  | ignored (event : String) (email : String)
  | ok (email : String) (active : Bool) (event : String)
deriving DecidableEq

/-- The `detail` string of the error responses raised via `HTTPException`
(lines 181, 186). -/
def httpDetail : WResponse → Option String
  | .unauthorized => some "Invalid webhook token"
  | .badRequest => some "Invalid JSON"
  | _ => none

/-- The `print` diagnostics the handler can emit, with the data each one
interpolates (lines 189-190, 208-209, 240, 257). -/
inductive LogLine where
  | debugKeysPreview (data : Json)
  | noEmailLog (event : String) (data : Json)
  | ignoredEvent (event : String) (email : String)
  | okUpsert (email : String) (active : Bool) (event : String)

/-- Result of one handler call: new database state, emitted diagnostics,
HTTP response. -/
structure HandlerResult where
  db : DBState
  log : List LogLine
  response : WResponse

/-- The `POST /webhook/kiwify` handler (lines 177-264). `body` is the
result of `await request.json()` (`none` = parse failure); `now` is
`datetime.utcnow()`. A body that is valid JSON but not an object makes
`data.keys()` (line 189) raise before anything is printed or written,
modelled as `serverError`. -/
def kiwify_webhook (webhookToken : String) (req : HRequest) (body : Option Json)
    (now : Nat) (db : DBState) : HandlerResult :=
  if !token_ok webhookToken req then
    ⟨db, [], .unauthorized⟩
  else
    match body with
    | none => ⟨db, [], .badRequest⟩
    | some data =>
      match data with
      | .obj fields =>
        let event := normalize_event fields
        let email := pick_email data
        let db1 : DBState :=
          { db with webhook_events :=
              db.webhook_events ++ [⟨strOrNone event, strOrNone email, data⟩] }
        if email == "" then
          ⟨db1, [.debugKeysPreview data, .noEmailLog event data], .noEmail event⟩
        else
          match classify event with
          | .Activate =>
            ⟨{ db1 with subscriptions := upsertSubscription db1.subscriptions email true now },
             [.debugKeysPreview data, .okUpsert email true event],
             .ok email true event⟩
          | .Deactivate =>
            ⟨{ db1 with subscriptions := upsertSubscription db1.subscriptions email false now },
             [.debugKeysPreview data, .okUpsert email false event],
             .ok email false event⟩
          | .Ignore =>
            ⟨db1, [.debugKeysPreview data, .ignoredEvent event email], .ignored event email⟩
      | _ => ⟨db, [], .serverError⟩

/-- The JSON body of the `GET /status` response. -/
structure StatusResponse where
  email : String
  active : Bool
  found : Bool
  updated_at : Option Nat
deriving DecidableEq

/-- The `GET /status` handler (lines 70-91): normalize the email, run a
single SELECT, report the row; no write happens. -/
def status (emailParam : String) (db : DBState) : DBState × StatusResponse :=
  let email := pyLower (pyStrip emailParam)
  match db.subscriptions.find? (fun r => r.email == email) with
  | none => (db, ⟨email, false, false, none⟩)
  | some row => (db, ⟨row.email, row.active, true, some row.updated_at⟩)

/-- Specification reading of the email probe (4.2 of the spec): the first
path in the fixed order whose resolved value is a string containing `@`,
stripped and lower-cased; the empty string when no path matches. -/
def pick_email_spec (data : Json) : String :=
  (email_paths.findSome? (fun path =>
    match resolvePath data path with
    | .str s => if pyContainsChar s '@' then some (pyLower (pyStrip s)) else none
    | _ => none)).getD ""

/-- The candidate event fields, in the precedence order of the source's
`or`-chain (lines 161-170). -/
def event_fields : List String :=
  ["event", "type", "evento", "Event", "name", "webhook_event_type", "order_status"]

/-- Specification reading of the event chain: the value of the first
candidate field whose value is truthy. -/
def firstTruthyEventField (data : List (String × Json)) : Option Json :=
  event_fields.findSome? (fun k =>
    if pytruthy (dictGet data k) then some (dictGet data k) else none)

/-- Specification reading restricted to string-valued fields: the first
present, non-empty string among the candidate fields. -/
def firstNonEmptyStringField (data : List (String × Json)) : Option String :=
  event_fields.findSome? (fun k =>
    match dictGet data k with
    | .str s => if s == "" then none else some s
    | _ => none)

/-- Specification reading of the authorization rule (4.1): open mode, or a
matching occurrence in one of the three channels, each compared by exact
equality after stripping both the configured secret and the submitted
value, the bearer scheme matched case-insensitively. -/
def authorized_spec (rawSecret : String) (req : HRequest) : Prop :=
  pyStrip rawSecret = "" ∨
  (∃ s ∈ req.signatureParams, pyStrip s = pyStrip rawSecret) ∨
  pyStrip (req.xWebhookToken.getD "") = pyStrip rawSecret ∨
  (pyStartsWith (pyLower (pyStrip (req.authorization.getD ""))) "bearer " = true ∧
   pyStrip ⟨afterFirstSpace (pyStrip (req.authorization.getD "")).data⟩ = pyStrip rawSecret)

/-- The classifier with the two membership tests in the opposite order,
used to state that classification does not depend on evaluation order. -/
def classify_negFirst (event : String) : Classification :=
  if inactive_events.contains event then .Deactivate
  else if active_events.contains event then .Activate
  else .Ignore

/-- A request presenting no token channel at all. -/
def emptyReq : HRequest := ⟨[], none, none⟩

/-- The empty database. -/
def emptyDB : DBState := ⟨[], []⟩

/-- A minimal payload carrying an activating event and an email. -/
def activatePayload (e : String) : Json :=
  .obj [("event", .str "order_approved"), ("email", .str e)]

/-- The payload of the email-precedence property: both `customer.email`
and top-level `email` are present. -/
def precedencePayload : Json :=
  .obj [("customer", .obj [("email", .str "a@x.com")]), ("email", .str "b@x.com")]

/-- The database transition made by one activate webhook call. -/
def activateStep (tok : String) (req : HRequest) (e : String) (now : Nat) (db : DBState) : DBState :=
  (kiwify_webhook tok req (some (activatePayload e)) now db).db

/-- N-fold application of a database transition. -/
def iterDB (f : DBState → DBState) : Nat → DBState → DBState
  | 0, db => db
  | n + 1, db => iterDB f n (f db)

/-! ## Generic list lemmas -/

lemma list_contains_iff {α : Type _} [BEq α] [LawfulBEq α] (l : List α) (a : α) :
    l.contains a = true ↔ a ∈ l := by
  simp [List.contains, List.elem_iff]

lemma mem_dropWhile_of_mem {p : Char → Bool} {c : Char} (hc : p c = false) :
    ∀ {l : List Char}, c ∈ l → c ∈ l.dropWhile p := by
  intro l hl
  induction l with
  | nil => cases hl
  | cons x xs ih =>
    by_cases hx : p x = true
    · rw [List.dropWhile_cons_of_pos hx]
      rcases List.mem_cons.mp hl with h | h
      · subst h; rw [hx] at hc; cases hc
      · exact ih h
    · rw [List.dropWhile_cons_of_neg hx]
      exact hl

/-! ## Python string helper lemmas -/

lemma pyContainsChar_iff (s : String) (c : Char) :
    pyContainsChar s c = true ↔ c ∈ s.data := by
  simp [pyContainsChar, List.contains, List.elem_iff]

lemma pyStrip_contains {s : String} {c : Char} (hsp : pyIsSpace c = false)
    (h : pyContainsChar s c = true) : pyContainsChar (pyStrip s) c = true := by
  rw [pyContainsChar_iff] at h ⊢
  show c ∈ ((s.data.dropWhile pyIsSpace).reverse.dropWhile pyIsSpace).reverse
  rw [List.mem_reverse]
  exact mem_dropWhile_of_mem hsp (List.mem_reverse.mpr (mem_dropWhile_of_mem hsp h))

lemma pyLower_contains_at {s : String} (h : pyContainsChar s '@' = true) :
    pyContainsChar (pyLower s) '@' = true := by
  rw [pyContainsChar_iff] at h ⊢
  show '@' ∈ s.data.map Char.toLower
  exact List.mem_map.mpr ⟨'@', h, by decide⟩

lemma ne_empty_of_contains {s : String} {c : Char} (h : pyContainsChar s c = true) :
    s ≠ "" := by
  intro he
  subst he
  rw [pyContainsChar_iff] at h
  cases h

/-- The full normalization of a found email keeps the `@`. -/
lemma normalized_email_contains_at {s : String} (h : pyContainsChar s '@' = true) :
    pyContainsChar (pyLower (pyStrip s)) '@' = true :=
  pyLower_contains_at (pyStrip_contains (by decide) h)

/-! ## Email extraction lemmas -/

lemma pick_email_go_contains_at (data : Json) (l : List (List String)) :
    pick_email_go data l = "" ∨ pyContainsChar (pick_email_go data l) '@' = true := by
  induction l with
  | nil => exact Or.inl rfl
  | cons p ps ih =>
    cases hr : resolvePath data p with
    | str s =>
      by_cases hc : pyContainsChar s '@' = true
      · right
        simp only [pick_email_go, hr, hc, if_true]
        exact normalized_email_contains_at hc
      · simpa only [pick_email_go, hr, hc, Bool.false_eq_true, if_false] using ih
    | null => simpa only [pick_email_go, hr] using ih
    | bool b => simpa only [pick_email_go, hr] using ih
    | num n => simpa only [pick_email_go, hr] using ih
    | arr elems => simpa only [pick_email_go, hr] using ih
    | obj fields => simpa only [pick_email_go, hr] using ih

/-- Every non-empty `pick_email` result contains the character `@`. -/
lemma pick_email_contains_at {data : Json} (h : pick_email data ≠ "") :
    pyContainsChar (pick_email data) '@' = true :=
  (pick_email_go_contains_at data email_paths).resolve_left h

lemma pick_email_go_eq_findSome (data : Json) (l : List (List String)) :
    pick_email_go data l =
      (l.findSome? (fun path =>
        match resolvePath data path with
        | .str s => if pyContainsChar s '@' then some (pyLower (pyStrip s)) else none
        | _ => none)).getD "" := by
  induction l with
  | nil => rfl
  | cons p ps ih =>
    cases hr : resolvePath data p with
    | str s =>
      by_cases hc : pyContainsChar s '@' = true
      · simp [pick_email_go, List.findSome?_cons, hr, hc]
      · simp only [pick_email_go, List.findSome?_cons, hr, hc, Bool.false_eq_true, if_false]
        exact ih
    | null => simpa only [pick_email_go, List.findSome?_cons, hr] using ih
    | bool b => simpa only [pick_email_go, List.findSome?_cons, hr] using ih
    | num n => simpa only [pick_email_go, List.findSome?_cons, hr] using ih
    | arr elems => simpa only [pick_email_go, List.findSome?_cons, hr] using ih
    | obj fields => simpa only [pick_email_go, List.findSome?_cons, hr] using ih

/-! ## Event normalization lemmas -/

lemma normalize_event_eq_firstTruthy (data : List (String × Json)) :
    normalize_event data =
      match firstTruthyEventField data with
      | some v => eventProc (pystr v)
      | none => "" := by
  unfold normalize_event firstTruthyEventField event_fields
  simp only [List.findSome?_cons]
  by_cases h1 : pytruthy (dictGet data "event") = true
  · simp [pyor, h1]
  · simp only [pyor, h1, Bool.false_eq_true, if_false]
    by_cases h2 : pytruthy (dictGet data "type") = true
    · simp [h2]
    · simp only [h2, Bool.false_eq_true, if_false]
      by_cases h3 : pytruthy (dictGet data "evento") = true
      · simp [h3]
      · simp only [h3, Bool.false_eq_true, if_false]
        by_cases h4 : pytruthy (dictGet data "Event") = true
        · simp [h4]
        · simp only [h4, Bool.false_eq_true, if_false]
          by_cases h5 : pytruthy (dictGet data "name") = true
          · simp [h5]
          · simp only [h5, Bool.false_eq_true, if_false]
            by_cases h6 : pytruthy (dictGet data "webhook_event_type") = true
            · simp [h6]
            · simp only [h6, Bool.false_eq_true, if_false]
              by_cases h7 : pytruthy (dictGet data "order_status") = true
              · simp [h7]
              · simp only [h7, Bool.false_eq_true, if_false]
                rfl

lemma findSome?_truthy_eq_string (data : List (String × Json)) (ks : List String)
    (h : ∀ k ∈ ks, dictGet data k = .null ∨ ∃ s, dictGet data k = .str s) :
    ks.findSome? (fun k => if pytruthy (dictGet data k) then some (dictGet data k) else none) =
      (ks.findSome? (fun k =>
        match dictGet data k with
        | .str s => if s == "" then none else some s
        | _ => none)).map Json.str := by
  induction ks with
  | nil => rfl
  | cons k ks ih =>
    rcases h k (List.mem_cons_self k ks) with hk | ⟨s, hk⟩
    · simp only [List.findSome?_cons, hk]
      exact ih (fun k' hk' => h k' (List.mem_cons_of_mem k hk'))
    · simp only [List.findSome?_cons, hk]
      by_cases hs : s = ""
      · subst hs
        simpa using ih (fun k' hk' => h k' (List.mem_cons_of_mem k hk'))
      · have hs' : (s == "") = false := beq_eq_false_iff_ne.mpr hs
        have hs'' : (s != "") = true := by simp [bne, hs']
        simp [pytruthy, hs', hs'']

lemma firstTruthy_eq_firstString (data : List (String × Json))
    (h : ∀ k ∈ event_fields, dictGet data k = .null ∨ ∃ s, dictGet data k = .str s) :
    firstTruthyEventField data = (firstNonEmptyStringField data).map Json.str :=
  findSome?_truthy_eq_string data event_fields h

/-! ## Handler branch lemmas -/

lemma kiwify_webhook_unauthorized (tok : String) (req : HRequest) (body : Option Json)
    (now : Nat) (db : DBState) (htok : token_ok tok req = false) :
    kiwify_webhook tok req body now db = ⟨db, [], .unauthorized⟩ := by
  unfold kiwify_webhook
  rw [htok]
  rfl

lemma kiwify_webhook_badRequest (tok : String) (req : HRequest)
    (now : Nat) (db : DBState) (htok : token_ok tok req = true) :
    kiwify_webhook tok req none now db = ⟨db, [], .badRequest⟩ := by
  unfold kiwify_webhook
  rw [htok]
  rfl

lemma kiwify_webhook_nonObject (tok : String) (req : HRequest) (data : Json)
    (now : Nat) (db : DBState) (htok : token_ok tok req = true)
    (hobj : ∀ fields, data ≠ .obj fields) :
    kiwify_webhook tok req (some data) now db = ⟨db, [], .serverError⟩ := by
  unfold kiwify_webhook
  rw [htok]
  cases data with
  | obj fields => exact absurd rfl (hobj fields)
  | null => rfl
  | bool b => rfl
  | num n => rfl
  | str s => rfl
  | arr elems => rfl

lemma kiwify_webhook_noEmail (tok : String) (req : HRequest) (fields : List (String × Json))
    (now : Nat) (db : DBState) (htok : token_ok tok req = true)
    (hemail : pick_email (.obj fields) = "") :
    kiwify_webhook tok req (some (.obj fields)) now db =
      ⟨⟨db.subscriptions,
        db.webhook_events ++
          [⟨strOrNone (normalize_event fields), strOrNone (pick_email (.obj fields)), .obj fields⟩]⟩,
       [.debugKeysPreview (.obj fields), .noEmailLog (normalize_event fields) (.obj fields)],
       .noEmail (normalize_event fields)⟩ := by
  have hb : (pick_email (.obj fields) == "") = true := beq_iff_eq.mpr hemail
  unfold kiwify_webhook
  rw [htok]
  simp only [Bool.not_true, Bool.false_eq_true, if_false, hb, if_true]

lemma kiwify_webhook_ignored (tok : String) (req : HRequest) (fields : List (String × Json))
    (now : Nat) (db : DBState) (htok : token_ok tok req = true)
    (hemail : pick_email (.obj fields) ≠ "")
    (hclass : classify (normalize_event fields) = .Ignore) :
    kiwify_webhook tok req (some (.obj fields)) now db =
      ⟨⟨db.subscriptions,
        db.webhook_events ++
          [⟨strOrNone (normalize_event fields), strOrNone (pick_email (.obj fields)), .obj fields⟩]⟩,
       [.debugKeysPreview (.obj fields),
        .ignoredEvent (normalize_event fields) (pick_email (.obj fields))],
       .ignored (normalize_event fields) (pick_email (.obj fields))⟩ := by
  have hb : (pick_email (.obj fields) == "") = false := beq_eq_false_iff_ne.mpr hemail
  unfold kiwify_webhook
  rw [htok]
  simp only [Bool.not_true, Bool.false_eq_true, if_false, hb, hclass]

lemma kiwify_webhook_activate (tok : String) (req : HRequest) (fields : List (String × Json))
    (now : Nat) (db : DBState) (htok : token_ok tok req = true)
    (hemail : pick_email (.obj fields) ≠ "")
    (hclass : classify (normalize_event fields) = .Activate) :
    kiwify_webhook tok req (some (.obj fields)) now db =
      ⟨⟨upsertSubscription db.subscriptions (pick_email (.obj fields)) true now,
        db.webhook_events ++
          [⟨strOrNone (normalize_event fields), strOrNone (pick_email (.obj fields)), .obj fields⟩]⟩,
       [.debugKeysPreview (.obj fields),
        .okUpsert (pick_email (.obj fields)) true (normalize_event fields)],
       .ok (pick_email (.obj fields)) true (normalize_event fields)⟩ := by
  have hb : (pick_email (.obj fields) == "") = false := beq_eq_false_iff_ne.mpr hemail
  unfold kiwify_webhook
  rw [htok]
  simp only [Bool.not_true, Bool.false_eq_true, if_false, hb, hclass]

lemma kiwify_webhook_deactivate (tok : String) (req : HRequest) (fields : List (String × Json))
    (now : Nat) (db : DBState) (htok : token_ok tok req = true)
    (hemail : pick_email (.obj fields) ≠ "")
    (hclass : classify (normalize_event fields) = .Deactivate) :
    kiwify_webhook tok req (some (.obj fields)) now db =
      ⟨⟨upsertSubscription db.subscriptions (pick_email (.obj fields)) false now,
        db.webhook_events ++
          [⟨strOrNone (normalize_event fields), strOrNone (pick_email (.obj fields)), .obj fields⟩]⟩,
       [.debugKeysPreview (.obj fields),
        .okUpsert (pick_email (.obj fields)) false (normalize_event fields)],
       .ok (pick_email (.obj fields)) false (normalize_event fields)⟩ := by
  have hb : (pick_email (.obj fields) == "") = false := beq_eq_false_iff_ne.mpr hemail
  unfold kiwify_webhook
  rw [htok]
  simp only [Bool.not_true, Bool.false_eq_true, if_false, hb, hclass]

/-! ## Upsert lemmas -/

lemma upsert_of_absent (subs : List SubscriptionRow) (email : String) (a : Bool) (t : Nat)
    (h : subs.any (fun r => r.email == email) = false) :
    upsertSubscription subs email a t = subs ++ [⟨email, a, t⟩] := by
  unfold upsertSubscription
  rw [h]
  rfl

lemma upsert_of_present (subs : List SubscriptionRow) (email : String) (a : Bool) (t : Nat)
    (h : subs.any (fun r => r.email == email) = true) :
    upsertSubscription subs email a t =
      subs.map (fun r => if r.email == email then ⟨email, a, t⟩ else r) := by
  unfold upsertSubscription
  rw [h]
  rfl

lemma countP_upsert_eq_one (subs : List SubscriptionRow) (email : String) (a : Bool) (t : Nat)
    (h : subs.countP (fun r => r.email == email) ≤ 1) :
    (upsertSubscription subs email a t).countP (fun r => r.email == email) = 1 := by
  by_cases hany : subs.any (fun r => r.email == email) = true
  · rw [upsert_of_present subs email a t hany, List.countP_map]
    have hsame : ((fun r => r.email == email) ∘
        (fun r => if r.email == email then (⟨email, a, t⟩ : SubscriptionRow) else r)) =
        fun r => r.email == email := by
      funext r
      by_cases hr : (r.email == email) = true
      · simp [Function.comp, hr]
      · simp [Function.comp, hr]
    rw [hsame]
    have hpos : 0 < subs.countP (fun r => r.email == email) := by
      rw [List.countP_pos_iff]
      exact List.any_eq_true.mp hany
    omega
  · rw [upsert_of_absent subs email a t (Bool.not_eq_true _ ▸ eq_false_of_ne_true hany),
      List.countP_append]
    have h0 : subs.countP (fun r => r.email == email) = 0 := by
      rw [List.countP_eq_zero]
      intro r hr hcontra
      exact hany (List.any_eq_true.mpr ⟨r, hr, hcontra⟩)
    rw [h0]
    simp [List.countP_cons]

lemma find?_map_update (subs : List SubscriptionRow) (email : String) (a : Bool) (t : Nat)
    (h : subs.any (fun r => r.email == email) = true) :
    (subs.map (fun r => if r.email == email then (⟨email, a, t⟩ : SubscriptionRow) else r)).find?
      (fun r => r.email == email) = some ⟨email, a, t⟩ := by
  induction subs with
  | nil => cases h
  | cons r rs ih =>
    by_cases hr : (r.email == email) = true
    · rw [List.map_cons, if_pos hr]
      exact List.find?_cons_of_pos _ (by simp)
    · rw [List.map_cons, if_neg hr]
      have step : List.find? (fun s => s.email == email)
          (r :: rs.map (fun s => if s.email == email then (⟨email, a, t⟩ : SubscriptionRow) else s)) =
          List.find? (fun s => s.email == email)
            (rs.map (fun s => if s.email == email then (⟨email, a, t⟩ : SubscriptionRow) else s)) :=
        List.find?_cons_of_neg _ hr
      rw [step]
      exact ih (by simpa [List.any_cons, hr] using h)

lemma find?_upsert (subs : List SubscriptionRow) (email : String) (a : Bool) (t : Nat) :
    (upsertSubscription subs email a t).find? (fun r => r.email == email) =
      some ⟨email, a, t⟩ := by
  by_cases hany : subs.any (fun r => r.email == email) = true
  · rw [upsert_of_present subs email a t hany]
    exact find?_map_update subs email a t hany
  · have hany' : subs.any (fun r => r.email == email) = false := eq_false_of_ne_true hany
    rw [upsert_of_absent subs email a t hany', List.find?_append]
    have h0 : subs.find? (fun r => r.email == email) = none := by
      rw [List.find?_eq_none]
      intro r hr hcontra
      exact hany (List.any_eq_true.mpr ⟨r, hr, hcontra⟩)
    rw [h0]
    simp [List.find?]

lemma length_upsert_of_present (subs : List SubscriptionRow) (email : String) (a : Bool) (t : Nat)
    (h : subs.any (fun r => r.email == email) = true) :
    (upsertSubscription subs email a t).length = subs.length := by
  rw [upsert_of_present subs email a t h, List.length_map]

lemma mem_upsert_of_other (subs : List SubscriptionRow) (email : String) (a : Bool) (t : Nat)
    (r : SubscriptionRow) (hr : r ∈ subs) (hne : r.email ≠ email) :
    r ∈ upsertSubscription subs email a t := by
  by_cases hany : subs.any (fun s => s.email == email) = true
  · rw [upsert_of_present subs email a t hany]
    have : (if r.email == email then (⟨email, a, t⟩ : SubscriptionRow) else r) = r := by
      rw [if_neg (by simpa [beq_iff_eq] using hne)]
    exact this ▸ List.mem_map_of_mem _ hr
  · rw [upsert_of_absent subs email a t (eq_false_of_ne_true hany)]
    exact List.mem_append_left _ hr

/-! ## Token validation lemmas -/

lemma ifchain_iff (a x g b : Bool) :
    (if a then true else if x then true else if g then b else false) = true ↔
      a = true ∨ x = true ∨ (g = true ∧ b = true) := by
  cases a <;> cases x <;> cases g <;> cases b <;> simp

lemma qs_cond_iff (params : List String) (tok : String) (h : tok ≠ "") :
    (!((params.filter (fun s => s != "")).map pyStrip).isEmpty &&
      ((params.filter (fun s => s != "")).map pyStrip).contains tok) = true ↔
      ∃ s ∈ params, pyStrip s = tok := by
  constructor
  · intro hc
    have hc2 := (Bool.and_eq_true _ _ |>.mp hc).2
    rw [list_contains_iff] at hc2
    rcases List.mem_map.mp hc2 with ⟨s, hs, heq⟩
    exact ⟨s, (List.mem_filter.mp hs).1, heq⟩
  · rintro ⟨s, hs, heq⟩
    have hsne : s ≠ "" := by
      intro hse
      subst hse
      have h2 : ("" : String) = tok := heq
      exact h h2.symm
    have hmem : tok ∈ (params.filter (fun s => s != "")).map pyStrip :=
      List.mem_map.mpr ⟨s, List.mem_filter.mpr ⟨hs, by simp [hsne]⟩, heq⟩
    rw [Bool.and_eq_true]
    refine ⟨?_, (list_contains_iff _ _).mpr hmem⟩
    have hne := List.ne_nil_of_mem hmem
    cases hl : ((params.filter (fun s => s != "")).map pyStrip).isEmpty
    · rfl
    · exact absurd (List.isEmpty_iff.mp hl) hne

/-- Claim C3: the token authenticator authorizes a request iff the
configured secret is empty, or some occurrence of the repeatable
`signature` query parameter equals the secret, or the `X-Webhook-Token`
header equals the secret, or a `Bearer` Authorization header (scheme
matched case-insensitively) carries a token equal to the secret — all by
exact string equality after trimming surrounding whitespace from both the
configured secret and the submitted value, with no case normalization of
the token itself. -/
theorem token_ok_iff_authorized (rawSecret : String) (req : HRequest) :
    token_ok (pyStrip rawSecret) req = true ↔ authorized_spec rawSecret req := by
  unfold authorized_spec
  by_cases h0 : pyStrip rawSecret = ""
  · constructor
    · intro _
      exact Or.inl h0
    · intro _
      unfold token_ok
      rw [if_pos (beq_iff_eq.mpr h0)]
  · have hchain : token_ok (pyStrip rawSecret) req =
        (if (!((req.signatureParams.filter (fun s => s != "")).map pyStrip).isEmpty &&
              ((req.signatureParams.filter (fun s => s != "")).map pyStrip).contains (pyStrip rawSecret)) then true
         else if (pyStrip (req.xWebhookToken.getD "") == pyStrip rawSecret) then true
         else if pyStartsWith (pyLower (pyStrip (req.authorization.getD ""))) "bearer " then
           (pyStrip ⟨afterFirstSpace (pyStrip (req.authorization.getD "")).data⟩ == pyStrip rawSecret)
         else false) := by
      unfold token_ok
      rw [if_neg (by simpa [beq_iff_eq] using h0)]
    rw [hchain, ifchain_iff]
    rw [qs_cond_iff req.signatureParams (pyStrip rawSecret) h0]
    simp only [beq_iff_eq]
    constructor
    · rintro (hq | hx | hb)
      · exact Or.inr (Or.inl hq)
      · exact Or.inr (Or.inr (Or.inl hx))
      · exact Or.inr (Or.inr (Or.inr hb))
    · rintro (h | hq | hx | hb)
      · exact absurd h h0
      · exact Or.inl hq
      · exact Or.inr (Or.inl hx)
      · exact Or.inr (Or.inr hb)

/-! ## Activate-payload step lemmas -/

lemma pick_email_activatePayload (e : String) (he : pyContainsChar e '@' = true) :
    pick_email (activatePayload e) = pyLower (pyStrip e) := by
  have h : pick_email (activatePayload e) =
      if pyContainsChar e '@' then pyLower (pyStrip e) else "" := rfl
  rw [h, if_pos he]

lemma normalize_event_activatePayload (e : String) :
    normalize_event [("event", Json.str "order_approved"), ("email", Json.str e)] =
      "order_approved" := rfl

lemma activate_step (tok : String) (req : HRequest) (e : String) (now : Nat) (db : DBState)
    (htok : token_ok tok req = true) (he : pyContainsChar e '@' = true) :
    kiwify_webhook tok req (some (activatePayload e)) now db =
      ⟨⟨upsertSubscription db.subscriptions (pyLower (pyStrip e)) true now,
        db.webhook_events ++
          [⟨some "order_approved", some (pyLower (pyStrip e)), activatePayload e⟩]⟩,
       [.debugKeysPreview (activatePayload e),
        .okUpsert (pyLower (pyStrip e)) true "order_approved"],
       .ok (pyLower (pyStrip e)) true "order_approved"⟩ := by
  have hpe : pick_email (.obj [("event", Json.str "order_approved"), ("email", Json.str e)]) =
      pyLower (pyStrip e) := pick_email_activatePayload e he
  have hne : pick_email (.obj [("event", Json.str "order_approved"), ("email", Json.str e)]) ≠ "" := by
    rw [hpe]
    exact ne_empty_of_contains (normalized_email_contains_at he)
  have h1 : kiwify_webhook tok req (some (activatePayload e)) now db =
      kiwify_webhook tok req
        (some (.obj [("event", Json.str "order_approved"), ("email", Json.str e)])) now db := rfl
  rw [h1, kiwify_webhook_activate tok req _ now db htok hne rfl, hpe,
    normalize_event_activatePayload e]
  have hEne : pyLower (pyStrip e) ≠ "" := ne_empty_of_contains (normalized_email_contains_at he)
  have hso : strOrNone (pyLower (pyStrip e)) = some (pyLower (pyStrip e)) := by
    unfold strOrNone
    rw [if_neg (by simpa [beq_iff_eq] using hEne)]
  rw [hso]
  rfl

lemma activateStep_eq (tok : String) (req : HRequest) (e : String) (now : Nat) (db : DBState)
    (htok : token_ok tok req = true) (he : pyContainsChar e '@' = true) :
    activateStep tok req e now db =
      ⟨upsertSubscription db.subscriptions (pyLower (pyStrip e)) true now,
       db.webhook_events ++
         [⟨some "order_approved", some (pyLower (pyStrip e)), activatePayload e⟩]⟩ := by
  unfold activateStep
  rw [activate_step tok req e now db htok he]

lemma iter_activate (tok : String) (req : HRequest) (e : String) (now : Nat)
    (htok : token_ok tok req = true) (he : pyContainsChar e '@' = true) :
    ∀ (n : Nat) (db : DBState),
      db.subscriptions.countP (fun r => r.email == pyLower (pyStrip e)) ≤ 1 →
      (iterDB (activateStep tok req e now) n db).webhook_events.length
          = db.webhook_events.length + n ∧
      (iterDB (activateStep tok req e now) n db).subscriptions.countP
          (fun r => r.email == pyLower (pyStrip e)) ≤ 1 ∧
      (1 ≤ n →
        (iterDB (activateStep tok req e now) n db).subscriptions.countP
            (fun r => r.email == pyLower (pyStrip e)) = 1 ∧
        (iterDB (activateStep tok req e now) n db).subscriptions.find?
            (fun r => r.email == pyLower (pyStrip e)) =
          some ⟨pyLower (pyStrip e), true, now⟩) := by
  intro n
  induction n with
  | zero =>
    intro db hdb
    exact ⟨by simp [iterDB], hdb, fun h => absurd h (by omega)⟩
  | succ m ih =>
    intro db hdb
    have hstep := activateStep_eq tok req e now db htok he
    have hc1 : (upsertSubscription db.subscriptions (pyLower (pyStrip e)) true now).countP
        (fun r => r.email == pyLower (pyStrip e)) = 1 :=
      countP_upsert_eq_one _ _ _ _ hdb
    have hid : iterDB (activateStep tok req e now) (m + 1) db =
        iterDB (activateStep tok req e now) m (activateStep tok req e now db) := rfl
    rcases Nat.eq_zero_or_pos m with hm | hm
    · subst hm
      rw [hid, hstep]
      refine ⟨?_, ?_, fun _ => ⟨?_, ?_⟩⟩
      · simp [iterDB, List.length_append]
      · simpa [iterDB] using le_of_eq hc1
      · simpa [iterDB] using hc1
      · simpa [iterDB] using find?_upsert db.subscriptions (pyLower (pyStrip e)) true now
    · have ihm := ih (activateStep tok req e now db)
        (by rw [hstep]; exact le_of_eq hc1)
      rw [hid]
      refine ⟨?_, ihm.2.1, fun _ => ihm.2.2 hm⟩
      rw [ihm.1, hstep]
      simp [List.length_append]
      omega

/-! ## Claim theorems -/

/-- Claim C4: email extraction probes the fixed ordered list of paths and
returns the trimmed, lower-cased value of the first path that resolves
through mappings to a string containing `@`; a non-mapping intermediate
node makes a path a non-match; no match yields the empty string; and a
payload with both `customer.email = "a@x.com"` and top-level
`email = "b@x.com"` resolves to `"a@x.com"`. -/
theorem pick_email_correct :
    (∀ data, pick_email data = pick_email_spec data) ∧
    pick_email precedencePayload = "a@x.com" ∧
    pick_email (.obj [("customer", .str "c@x.com"), ("email", .str "b@x.com")]) = "b@x.com" ∧
    pick_email (.obj []) = "" := by
  refine ⟨?_, by decide, by decide, rfl⟩
  intro data
  exact pick_email_go_eq_findSome data email_paths

/-- Claim C5: event normalization returns the first present, non-empty
value among the fixed precedence-ordered candidate fields, trimmed,
lower-cased, with spaces replaced by underscores (stated over string-valued
fields, where a non-empty value is a non-empty string); when all fields are
absent it returns the empty string; and `"Compra Aprovada"` normalizes to
`"compra_aprovada"`. -/
theorem normalize_event_correct :
    (∀ data, (∀ k ∈ event_fields, dictGet data k = .null ∨ ∃ s, dictGet data k = .str s) →
      normalize_event data =
        match firstNonEmptyStringField data with
        | some s => eventProc s
        | none => "") ∧
    (∀ data, (∀ k ∈ event_fields, dictGet data k = .null) → normalize_event data = "") ∧
    normalize_event [("event", .str "Compra Aprovada")] = "compra_aprovada" := by
  have key : ∀ data, (∀ k ∈ event_fields, dictGet data k = .null ∨ ∃ s, dictGet data k = .str s) →
      normalize_event data =
        match firstNonEmptyStringField data with
        | some s => eventProc s
        | none => "" := by
    intro data h
    rw [normalize_event_eq_firstTruthy, firstTruthy_eq_firstString data h]
    cases firstNonEmptyStringField data with
    | none => rfl
    | some s => rfl
  refine ⟨key, ?_, by decide⟩
  intro data h
  rw [key data (fun k hk => Or.inl (h k hk))]
  have hnone : firstNonEmptyStringField data = none := by
    unfold firstNonEmptyStringField
    rw [List.findSome?_eq_none_iff]
    intro k hk
    rw [h k hk]
  rw [hnone]

/-- Witness for C5 at a concrete payload with a string event field. -/
theorem normalize_event_correct_witness :
    normalize_event [("type", Json.str "Compra Aprovada")] =
      match firstNonEmptyStringField [("type", Json.str "Compra Aprovada")] with
      | some s => eventProc s
      | none => "" :=
  normalize_event_correct.1 [("type", Json.str "Compra Aprovada")]
    (by
      intro k hk
      fin_cases hk
      · exact Or.inl rfl
      · exact Or.inr ⟨"Compra Aprovada", rfl⟩
      · exact Or.inl rfl
      · exact Or.inl rfl
      · exact Or.inl rfl
      · exact Or.inl rfl
      · exact Or.inl rfl)

/-- Claim C10: event normalization is total over any JSON object and equals
the processed string of the first truthy candidate field, so
present-but-falsy values (0, false, the empty string, null) are skipped in
favor of later fields, and a truthy non-string value is converted with
`str()` before trimming, lower-casing and underscore substitution. -/
theorem normalize_event_truthy_chain :
    (∀ data, normalize_event data =
      match firstTruthyEventField data with
      | some v => eventProc (pystr v)
      | none => "") ∧
    normalize_event [("event", .num 0), ("type", .bool false), ("evento", .str ""),
      ("Event", .null), ("name", .str "paid")] = "paid" ∧
    normalize_event [("order_status", .num 42)] = "42" :=
  ⟨normalize_event_eq_firstTruthy, by decide, by decide⟩

/-- Claim C6: classification yields `Activate` iff the normalized name is
in the fixed positive set, `Deactivate` iff in the fixed negative set, and
`Ignore` for every other value including the empty string; the two sets
are disjoint, and the result does not depend on the order in which the two
membership tests are made. -/
theorem classify_correct :
    (∀ e, classify e = .Activate ↔ e ∈ active_events) ∧
    (∀ e, classify e = .Deactivate ↔ e ∈ inactive_events) ∧
    (∀ e, classify e = .Ignore ↔ (e ∉ active_events ∧ e ∉ inactive_events)) ∧
    classify "" = .Ignore ∧
    (∀ e ∈ active_events, e ∉ inactive_events) ∧
    (∀ e, classify e = classify_negFirst e) := by
  have hdisj : ∀ e ∈ active_events, e ∉ inactive_events := by decide
  refine ⟨?_, ?_, ?_, by decide, hdisj, ?_⟩
  · intro e
    by_cases ha : e ∈ active_events
    · simp [classify, list_contains_iff, ha]
    · by_cases hb : e ∈ inactive_events
      · simp [classify, list_contains_iff, ha, hb]
      · simp [classify, list_contains_iff, ha, hb]
  · intro e
    by_cases ha : e ∈ active_events
    · simp [classify, list_contains_iff, ha, hdisj e ha]
    · by_cases hb : e ∈ inactive_events
      · simp [classify, list_contains_iff, ha, hb]
      · simp [classify, list_contains_iff, ha, hb]
  · intro e
    by_cases ha : e ∈ active_events
    · simp [classify, list_contains_iff, ha]
    · by_cases hb : e ∈ inactive_events
      · simp [classify, list_contains_iff, ha, hb]
      · simp [classify, list_contains_iff, ha, hb]
  · intro e
    by_cases ha : e ∈ active_events
    · have hb := hdisj e ha
      simp [classify, classify_negFirst, list_contains_iff, ha, hb]
    · by_cases hb : e ∈ inactive_events
      · simp [classify, classify_negFirst, list_contains_iff, ha, hb]
      · simp [classify, classify_negFirst, list_contains_iff, ha, hb]

/-- Witness for C6: the disjointness part applied at `"order_approved"`. -/
theorem classify_correct_witness :
    "order_approved" ∉ inactive_events :=
  classify_correct.2.2.2.2.1 "order_approved" (by decide)

/-- Witness for C3: a stripped secret matching one occurrence of the
repeated `signature` query parameter authorizes the request. -/
theorem token_ok_iff_authorized_witness :
    token_ok (pyStrip " s3cret ") ⟨["bad", " s3cret"], none, none⟩ = true ↔
      authorized_spec " s3cret " ⟨["bad", " s3cret"], none, none⟩ :=
  token_ok_iff_authorized " s3cret " ⟨["bad", " s3cret"], none, none⟩

/-- Claim C2: submitting the same activate event for the same email N
times (N at least 1) leaves exactly one Subscription row for that email,
with `active = true` and `updated_at` set, and adds exactly N audit rows;
and each classified event upserts the row in place: insert when absent,
otherwise overwrite with the row count unchanged and unrelated rows
untouched, regardless of whether the new state equals the old one. -/
theorem activate_idempotence :
    (∀ (tok : String) (req : HRequest) (e : String) (now : Nat) (N : Nat) (db : DBState),
      token_ok tok req = true → pyContainsChar e '@' = true → 1 ≤ N →
      db.subscriptions.countP (fun r => r.email == pyLower (pyStrip e)) ≤ 1 →
      (iterDB (activateStep tok req e now) N db).subscriptions.countP
          (fun r => r.email == pyLower (pyStrip e)) = 1 ∧
      (iterDB (activateStep tok req e now) N db).subscriptions.find?
          (fun r => r.email == pyLower (pyStrip e)) = some ⟨pyLower (pyStrip e), true, now⟩ ∧
      (iterDB (activateStep tok req e now) N db).webhook_events.length
          = db.webhook_events.length + N) ∧
    (∀ subs email a t, subs.any (fun r => r.email == email) = false →
      upsertSubscription subs email a t = subs ++ [⟨email, a, t⟩]) ∧
    (∀ subs email a t, subs.any (fun r => r.email == email) = true →
      (upsertSubscription subs email a t).length = subs.length ∧
      (upsertSubscription subs email a t).find? (fun r => r.email == email) = some ⟨email, a, t⟩ ∧
      (∀ r ∈ subs, r.email ≠ email → r ∈ upsertSubscription subs email a t)) := by
  refine ⟨?_, upsert_of_absent, ?_⟩
  · intro tok req e now N db htok he hN hdb
    have h := iter_activate tok req e now htok he N db hdb
    exact ⟨(h.2.2 hN).1, (h.2.2 hN).2, h.1⟩
  · intro subs email a t h
    exact ⟨length_upsert_of_present subs email a t h, find?_upsert subs email a t,
      fun r hr hne => mem_upsert_of_other subs email a t r hr hne⟩

/-- Witness for C2: two identical activates for `user@test.com` against
the empty database leave exactly one matching row. -/
theorem activate_idempotence_witness :
    (iterDB (activateStep "" emptyReq "user@test.com" 0) 2 emptyDB).subscriptions.countP
        (fun r => r.email == pyLower (pyStrip "user@test.com")) = 1 :=
  (activate_idempotence.1 "" emptyReq "user@test.com" 0 2 emptyDB rfl (by decide)
    (by decide) (by decide)).1

/-- Claim C7: the status query normalizes the email (strip, lower-case),
reads the Subscription row and performs no write; when no row exists it
reports `active: false, found: false`; when a row exists it reports the
stored values with `found: true`; and after an activate event for
`user@test.com`, a query for the mixed-case `USER@TEST.COM` reports
active and found. -/
theorem status_correct :
    (∀ e db, (status e db).1 = db) ∧
    (∀ e db, db.subscriptions.find? (fun r => r.email == pyLower (pyStrip e)) = none →
      (status e db).2 = ⟨pyLower (pyStrip e), false, false, none⟩) ∧
    (∀ e db row, db.subscriptions.find? (fun r => r.email == pyLower (pyStrip e)) = some row →
      (status e db).2 = ⟨row.email, row.active, true, some row.updated_at⟩) ∧
    (∀ (tok : String) (req : HRequest) (now : Nat) (db : DBState), token_ok tok req = true →
      (status "USER@TEST.COM"
          (kiwify_webhook tok req (some (activatePayload "user@test.com")) now db).db).2.active
        = true ∧
      (status "USER@TEST.COM"
          (kiwify_webhook tok req (some (activatePayload "user@test.com")) now db).db).2.found
        = true) := by
  refine ⟨?_, ?_, ?_, ?_⟩
  · intro e db
    simp only [status]
    split <;> rfl
  · intro e db h
    simp only [status]
    rw [h]
  · intro e db row h
    simp only [status]
    rw [h]
  · intro tok req now db htok
    rw [activate_step tok req "user@test.com" now db htok (by decide)]
    have hl2 : pyLower (pyStrip "user@test.com") = "user@test.com" := by decide
    rw [hl2]
    have hst : (status "USER@TEST.COM"
        ⟨upsertSubscription db.subscriptions "user@test.com" true now,
         db.webhook_events ++
           [⟨some "order_approved", some "user@test.com",
             activatePayload "user@test.com"⟩]⟩).2 =
        ⟨"user@test.com", true, true, some now⟩ := by
      simp only [status]
      have hl1 : pyLower (pyStrip "USER@TEST.COM") = "user@test.com" := by decide
      rw [hl1]
      have hf := find?_upsert db.subscriptions "user@test.com" true now
      rw [hf]
    rw [hst]
    exact ⟨rfl, rfl⟩

/-- Witness for C7: the round-trip at the empty database in open mode. -/
theorem status_correct_witness :
    (status "USER@TEST.COM"
        (kiwify_webhook "" emptyReq (some (activatePayload "user@test.com")) 0 emptyDB).db).2.active
      = true :=
  (status_correct.2.2.2 "" emptyReq 0 emptyDB rfl).1

/-- Claim C1 (amended): a webhook call appends exactly one audit row iff
it passes token authentication and its body parses as a JSON object:
nothing is written on 401 (bad token) or 400 (malformed JSON); a
valid-JSON non-object body raises before any write or output (HTTP 500);
an object body always gets exactly one appended audit row, even when the
email is empty or the event unclassified, and in those two cases no
subscription write happens either. -/
theorem audit_row_written_iff (tok : String) (req : HRequest) (body : Option Json)
    (now : Nat) (db : DBState) :
    (token_ok tok req = false →
      kiwify_webhook tok req body now db = ⟨db, [], .unauthorized⟩) ∧
    (token_ok tok req = true → body = none →
      kiwify_webhook tok req body now db = ⟨db, [], .badRequest⟩) ∧
    (∀ data, token_ok tok req = true → body = some data → (∀ fields, data ≠ .obj fields) →
      kiwify_webhook tok req body now db = ⟨db, [], .serverError⟩) ∧
    (∀ fields, token_ok tok req = true → body = some (.obj fields) →
      (kiwify_webhook tok req body now db).db.webhook_events =
        db.webhook_events ++
          [⟨strOrNone (normalize_event fields), strOrNone (pick_email (.obj fields)),
            .obj fields⟩]) ∧
    (∀ fields, token_ok tok req = true → body = some (.obj fields) →
      (pick_email (.obj fields) = "" ∨ classify (normalize_event fields) = .Ignore) →
      (kiwify_webhook tok req body now db).db.subscriptions = db.subscriptions) := by
  refine ⟨?_, ?_, ?_, ?_, ?_⟩
  · intro h
    exact kiwify_webhook_unauthorized tok req body now db h
  · intro h hb
    subst hb
    exact kiwify_webhook_badRequest tok req now db h
  · intro data h hb hobj
    subst hb
    exact kiwify_webhook_nonObject tok req data now db h hobj
  · intro fields h hb
    subst hb
    by_cases he : pick_email (.obj fields) = ""
    · rw [kiwify_webhook_noEmail tok req fields now db h he]
    · cases hc : classify (normalize_event fields) with
      | Activate => rw [kiwify_webhook_activate tok req fields now db h he hc]
      | Deactivate => rw [kiwify_webhook_deactivate tok req fields now db h he hc]
      | Ignore => rw [kiwify_webhook_ignored tok req fields now db h he hc]
  · intro fields h hb hcase
    subst hb
    by_cases he : pick_email (.obj fields) = ""
    · rw [kiwify_webhook_noEmail tok req fields now db h he]
    · rcases hcase with he2 | hig
      · exact absurd he2 he
      · rw [kiwify_webhook_ignored tok req fields now db h he hig]

/-- Counterexample to C1 as stated: the body `[]` parses as JSON and the
request is authorized (open mode), yet no audit row is written — the
handler escapes with an unhandled error instead of auditing. -/
theorem audit_row_counterexample :
    token_ok "" emptyReq = true ∧
    (kiwify_webhook "" emptyReq (some (.arr [])) 0 emptyDB).db.webhook_events.length = 0 ∧
    (kiwify_webhook "" emptyReq (some (.arr [])) 0 emptyDB).response = .serverError :=
  ⟨rfl, rfl, rfl⟩

/-- Witness for C1 at an object body with empty email and unclassified
event. -/
theorem audit_row_written_iff_witness :
    (kiwify_webhook "" emptyReq (some (.obj [])) 0 emptyDB).db.webhook_events =
      emptyDB.webhook_events ++
        [⟨strOrNone (normalize_event []), strOrNone (pick_email (.obj [])), .obj []⟩] :=
  (audit_row_written_iff "" emptyReq (some (.obj [])) 0 emptyDB).2.2.2.1 [] rfl rfl

/-- Claim C8 (amended): when authentication rejects a request the handler
emits no diagnostic output at all, leaves the database unchanged, and
returns 401 with the fixed detail string `"Invalid webhook token"` — the
same response whatever the secret and submitted values, so no secret
material appears in any output. -/
theorem unauthorized_silent (tok : String) (req : HRequest) (body : Option Json)
    (now : Nat) (db : DBState) (htok : token_ok tok req = false) :
    kiwify_webhook tok req body now db = ⟨db, [], .unauthorized⟩ ∧
    httpDetail (kiwify_webhook tok req body now db).response = some "Invalid webhook token" := by
  have h := kiwify_webhook_unauthorized tok req body now db htok
  refine ⟨h, ?_⟩
  rw [h]
  rfl

/-- Counterexample to C8 as stated: a rejected request yields an empty
diagnostic log — no record noting which token channels were present is
emitted anywhere. -/
theorem unauthorized_diag_counterexample :
    token_ok "s3cret" emptyReq = false ∧
    (kiwify_webhook "s3cret" emptyReq (some (activatePayload "user@test.com")) 0 emptyDB).log
      = [] ∧
    (kiwify_webhook "s3cret" emptyReq (some (activatePayload "user@test.com")) 0 emptyDB).response
      = .unauthorized :=
  ⟨rfl, rfl, rfl⟩

/-- Witness for C8 on a concrete rejected request. -/
theorem unauthorized_silent_witness :
    kiwify_webhook "s3cret" ⟨["wrong"], none, none⟩ none 0 emptyDB =
      ⟨emptyDB, [], .unauthorized⟩ :=
  (unauthorized_silent "s3cret" ⟨["wrong"], none, none⟩ none 0 emptyDB (by decide)).1

/-- Claim C9: the audit row written for an object body stores an empty
normalized event or email as NULL, never as the empty string; hence a
stored non-null event value is a non-empty string and a stored non-null
email value contains the character `@`. -/
theorem audit_row_nullability (tok : String) (req : HRequest) (fields : List (String × Json))
    (now : Nat) (db : DBState) (htok : token_ok tok req = true) :
    (kiwify_webhook tok req (some (.obj fields)) now db).db.webhook_events =
      db.webhook_events ++
        [⟨strOrNone (normalize_event fields), strOrNone (pick_email (.obj fields)),
          .obj fields⟩] ∧
    (∀ s, strOrNone (normalize_event fields) = some s → s ≠ "") ∧
    (∀ s, strOrNone (pick_email (.obj fields)) = some s →
      pyContainsChar s '@' = true ∧ s ≠ "") := by
  refine ⟨?_, ?_, ?_⟩
  · by_cases he : pick_email (.obj fields) = ""
    · rw [kiwify_webhook_noEmail tok req fields now db htok he]
    · cases hc : classify (normalize_event fields) with
      | Activate => rw [kiwify_webhook_activate tok req fields now db htok he hc]
      | Deactivate => rw [kiwify_webhook_deactivate tok req fields now db htok he hc]
      | Ignore => rw [kiwify_webhook_ignored tok req fields now db htok he hc]
  · intro s hs
    unfold strOrNone at hs
    by_cases hz : (normalize_event fields == "") = true
    · rw [if_pos hz] at hs
      cases hs
    · rw [if_neg hz] at hs
      injection hs with hseq
      subst hseq
      exact fun hcontra => hz (beq_iff_eq.mpr hcontra)
  · intro s hs
    unfold strOrNone at hs
    by_cases hz : (pick_email (.obj fields) == "") = true
    · rw [if_pos hz] at hs
      cases hs
    · rw [if_neg hz] at hs
      injection hs with hseq
      subst hseq
      have hne : pick_email (.obj fields) ≠ "" := fun hcontra => hz (beq_iff_eq.mpr hcontra)
      exact ⟨pick_email_contains_at hne, hne⟩

/-- Witness for C9 at a concrete activate payload. -/
theorem audit_row_nullability_witness :
    (kiwify_webhook "" emptyReq
        (some (.obj [("event", Json.str "order_approved"), ("email", Json.str "user@test.com")]))
        0 emptyDB).db.webhook_events =
      emptyDB.webhook_events ++
        [⟨strOrNone (normalize_event
            [("event", Json.str "order_approved"), ("email", Json.str "user@test.com")]),
          strOrNone (pick_email
            (.obj [("event", Json.str "order_approved"), ("email", Json.str "user@test.com")])),
          .obj [("event", Json.str "order_approved"), ("email", Json.str "user@test.com")]⟩] :=
  (audit_row_nullability "" emptyReq
    [("event", Json.str "order_approved"), ("email", Json.str "user@test.com")] 0 emptyDB rfl).1

end LazyBackend
